import Mathlib

/-!
Verification of the relaunchd manager lifecycle and job-admission engine
(`src/manager.cc`) against its specification.

The embedding follows the source: the `Manager` structure carries the fields
that `Manager` owns in C++ (`fsm` state, `pending_jobs`, `jobs`, the state
file document, the RPC channel bound flag), plus a log of `waitForEvent`
calls so that tick semantics are observable.  C++ `unordered_map` values are
modelled as association lists with first-match lookup; keys are unique by
construction in every reachable state.  Exceptions (`std::logic_error`) are
modelled with `Except`.  Collaborators whose sources are not part of the
core (`Job`, `StateFile`) are modelled minimally from the specification,
each marked in its doc comment.
-/

namespace Relaunchd

/-- First-match lookup in an association list, mirroring `unordered_map` find. -/
def alookup {α : Type} : List (String × α) → String → Option α
  | [], _ => none
  | (k, v) :: rest, key => if k = key then some v else alookup rest key

/-- Membership test, mirroring `unordered_map::count(key) > 0`. -/
def acontains {α : Type} (l : List (String × α)) (k : String) : Bool :=
  (alookup l k).isSome

/-- Update the first binding of a key, or append a new one, mirroring
`doc["Overrides"][label] = ...` / `emplace`. -/
def aset {α : Type} : List (String × α) → String → α → List (String × α)
  | [], k, v => [(k, v)]
  | (k', v') :: rest, k, v =>
    if k' = k then (k, v) :: rest else (k', v') :: aset rest k v

/-- Remove the first binding of a key, mirroring `map.erase(map.find(key))`. -/
def aerase {α : Type} : List (String × α) → String → List (String × α)
  | [], _ => []
  | (k', v') :: rest, k => if k' = k then rest else (k', v') :: aerase rest k

/-- Replace the value at the first binding of a key, if present. -/
def aupdate {α : Type} : List (String × α) → String → α → List (String × α)
  | [], _, _ => []
  | (k', v') :: rest, k, v =>
    if k' = k then (k, v) :: rest else (k', v') :: aupdate rest k v

/-- `Manager::States` from the source FSM. -/
inductive States where
  | Unconfigured
  | Running
  | GracefulShutdown
  | Finished
deriving DecidableEq, Repr

/-- `Manager::Triggers` from the source FSM. -/
inductive Triggers where
  | StartRequested
  | StopRequested
  | AllJobsExited
deriving DecidableEq, Repr

/-- The fields of `manifest::Manifest` that the admission engine reads:
`label` and `disabled` (the opaque remainder is irrelevant to admission). -/
structure Manifest where
  label : String
  disabled : Bool
deriving DecidableEq, Repr

/-- Result of `jsondata.get<manifest::Manifest>()`: `none` models the case
where the conversion throws (schema failure), caught inside `loadManifest`. -/
abbrev JsonVal := Option Manifest

/-- Modelled from the spec: the Job collaborator's lifecycle state
(`job.h`/`job.cc` are not part of the core sources).  The manager reads only
whether the state is `Unloaded`. -/
inductive JobState where
  | created
  | running
  | unloaded
deriving DecidableEq, Repr

/-- Modelled from the spec: the Job collaborator.  The manager reads its
manifest label, lifecycle state, `unload_requested` flag, `pid` and
`last_exit_status`. -/
structure Job where
  label : String
  disabled : Bool
  jobState : JobState
  unload_requested : Bool
  pid : Nat
  last_exit_status : Int
deriving DecidableEq, Repr

/-- `std::make_unique<Job>(path, manifest, eventmgr, state_file)`: a fresh
job bound to the manifest, in its initial (just-created) lifecycle state. -/
def Job.mk' (mf : Manifest) : Job :=
  { label := mf.label, disabled := mf.disabled, jobState := JobState.created,
    unload_requested := false, pid := 0, last_exit_status := 0 }

/-- Modelled from the spec: `Bootstrap` moves a Job from just-created to its
initial running-lifecycle state. -/
def Job.bootstrap (j : Job) : Job :=
  { j with jobState := JobState.running }

/-- Modelled from the spec: the Job collaborator's `unload(force)` records
the unload request and reports success; actual process teardown is
asynchronous and outside the core. -/
def Job.unloadJob (j : Job) (_force : Bool) : Job × Bool :=
  ({ j with unload_requested := true }, true)

/-- The `StateDocument`: `SchemaVersion` plus the `Overrides` mapping from
label to the persisted `Enabled` boolean. -/
structure StateDoc where
  schemaVersion : Nat
  overrides : List (String × Bool)
deriving DecidableEq, Repr

/-- `defaultStateDoc` from `Manager::createOrOpenStatefile`. -/
def defaultStateDoc : StateDoc :=
  { schemaVersion := 1, overrides := [] }

/-- Parse outcomes for a manifest file on disk: `manifest::parse` throws
(`unparseable`), yields JSON that fails `get<Manifest>` (`schemaBad`), or
yields a valid manifest. -/
inductive FileContent where
  | unparseable
  | schemaBad
  | ok (mf : Manifest)
deriving DecidableEq, Repr

/-- A filesystem node: a single manifest file, or a directory whose direct
entries are manifest files (`directory_iterator` is non-recursive). -/
inductive FsNode where
  | file (c : FileContent)
  | dir (entries : List FileContent)
deriving DecidableEq, Repr

/-- A snapshot of the filesystem paths the manager reads: absent key models
`!std::filesystem::exists(path)`. -/
abbrev Fs := List (String × FsNode)

/-- `manifest::parse` followed by `get<Manifest>`: `Except.error` models the
parse exception escaping `manifest::parse`; `Except.ok none` models JSON
that fails schema validation inside `loadManifest`. -/
def parseFile : FileContent → Except Unit JsonVal
  | FileContent.unparseable => Except.error ()
  | FileContent.schemaBad => Except.ok none
  | FileContent.ok mf => Except.ok (some mf)

/-- `std::logic_error` raised by the manager on invalid-state operations. -/
inductive ProgrammerError where
  | invalidState (msg : String)
deriving DecidableEq, Repr

/-- The manager state owned by `Manager` in the source: FSM state, the
`pending_jobs` and `jobs` maps, the state-file document (writes are durable
by construction), the RPC channel bound flag, the read-only inputs
(`domain` load paths, filesystem snapshot, build flag), and a log of
`eventmgr.waitForEvent` calls with their timeouts (milliseconds). -/
structure Manager where
  loadPaths : List String
  fs : Fs
  unitTestBuild : Bool
  fsmState : States
  pending_jobs : List (String × Job)
  jobs : List (String × Job)
  state_file : StateDoc
  chanBound : Bool
  waits : List (Option Nat)
deriving DecidableEq, Repr

/-- The `Manager` constructor: FSM starts in `Unconfigured`, both maps
empty; `createOrOpenStatefile` yields the on-disk document (`initialDoc`),
or the default document when `state.json` is absent. -/
def Manager.init (loadPaths : List String) (fs : Fs) (unitTestBuild : Bool)
    (initialDoc : StateDoc) : Manager :=
  { loadPaths := loadPaths, fs := fs, unitTestBuild := unitTestBuild,
    fsmState := States.Unconfigured, pending_jobs := [], jobs := [],
    state_file := initialDoc, chanBound := false, waits := [] }

/-- `Manager::jobExists`: membership in the `jobs` (active) map only. -/
def Manager.jobExists (m : Manager) (label : String) : Bool :=
  acontains m.jobs label

/-- `eventmgr.waitForEvent(timeout)`: the single suspension point; the model
records the call and its timeout. -/
def Manager.waitForEvent (m : Manager) (timeout : Option Nat) : Manager :=
  { m with waits := m.waits ++ [timeout] }

/-- `Manager::overrideJobEnabled`: load the document, set
`Overrides[label].Enabled = enabled` (updating or inserting), store it
durably. -/
def Manager.overrideJobEnabled (m : Manager) (label : String) (enabled : Bool) :
    Manager :=
  { m with state_file :=
      { m.state_file with overrides := aset m.state_file.overrides label enabled } }

/-- `Manager::loadManifest(json, path, overrideDisabled, forceLoad)`:
the admission decision procedure.  Returns the C++ return value paired with
the manager after the call. -/
def Manager.loadManifestJson (m : Manager) (jsondata : JsonVal)
    (overrideDisabled forceLoad : Bool) : Bool × Manager :=
  if m.fsmState = States.GracefulShutdown then
    (false, m)
  else
    match jsondata with
    | none => (false, m)
    | some manifest =>
      let label := manifest.label
      if m.jobExists label || acontains m.pending_jobs label then
        (false, m)
      else
        let m := if overrideDisabled then m.overrideJobEnabled label true else m
        if manifest.disabled && !forceLoad then
          (false, m)
        else
          match alookup m.state_file.overrides label with
          | some enabled =>
            if !enabled && !forceLoad then
              (false, m)
            else
              (true, { m with pending_jobs := m.pending_jobs ++ [(label, Job.mk' manifest)] })
          | none =>
            (true, { m with pending_jobs := m.pending_jobs ++ [(label, Job.mk' manifest)] })

/-- `Manager::loadManifest(path, overrideDisabled, forceLoad)`: parse the
file (a parse exception propagates to the caller), then admit. -/
def Manager.loadManifestPath (m : Manager) (path : String)
    (overrideDisabled forceLoad : Bool) : Except Unit (Bool × Manager) :=
  match alookup m.fs path with
  | some (FsNode.file c) =>
    match parseFile c with
    | Except.error e => Except.error e
    | Except.ok j => Except.ok (m.loadManifestJson j overrideDisabled forceLoad)
  | _ => Except.error ()

/-- One iteration of `startAllJobs`: move a pending entry into `jobs` and
fire `Bootstrap`, unless the label is already active (which the source
flags as an invariant violation and skips). -/
def promoteStep (jobs : List (String × Job)) (e : String × Job) :
    List (String × Job) :=
  if acontains jobs e.1 then jobs else jobs ++ [(e.1, e.2.bootstrap)]

/-- `Manager::startAllJobs`: promote every pending job into `jobs`,
bootstrapping each, then clear `pending_jobs`. -/
def Manager.startAllJobs (m : Manager) : Manager :=
  { m with jobs := m.pending_jobs.foldl promoteStep m.jobs, pending_jobs := [] }

/-- `Manager::unloadAllJobs`: ask every active job that is not already
`Unloaded` and has no pending unload request to unload; record per-job
failures but continue; return the conjunction of results. -/
def Manager.unloadAllJobs (m : Manager) : Bool × Manager :=
  let results := m.jobs.map (fun e =>
    if e.2.jobState = JobState.unloaded || e.2.unload_requested then
      (true, e)
    else
      let r := e.2.unloadJob true
      (r.2, (e.1, r.1)))
  (results.all (fun p => p.1), { m with jobs := results.map (fun p => p.2) })

/-- `Manager::forceUnloadAllJobs`: force-unload every active job (effects on
the Job collaborator ignored) and clear the `jobs` map. -/
def Manager.forceUnloadAllJobs (m : Manager) : Manager :=
  { m with jobs := [] }

/-- The `delete_job` IPC method registered in the `Manager` constructor:
erase the label from `jobs` if present. -/
def Manager.deleteJob (m : Manager) (arg : String) : Manager :=
  { m with jobs := aerase m.jobs arg }

/-- `Manager::unloadJob(Job&, overrideDisabled, forceUnload)` inlined with
`Manager::unloadJob(Label&, ...)`: reject labels not in `jobs`; optionally
persist `Overrides[label].Enabled = false`; delegate to the Job's unload and
return its result. -/
def Manager.unloadJobLabel (m : Manager) (label : String)
    (overrideDisabled forceUnload : Bool) : Bool × Manager :=
  if m.jobExists label then
    match alookup m.jobs label with
    | some job =>
      let m := if overrideDisabled then m.overrideJobEnabled label false else m
      let r := job.unloadJob forceUnload
      (r.2, { m with jobs := aupdate m.jobs label r.1 })
    | none => (false, m)
  else
    (false, m)

/-- One directory entry of `loadAllManifests`: parse and admit; a parse
exception is caught and reported as failure with the manager unchanged. -/
def subLoadStep (overrideDisabled forceLoad : Bool) (m : Manager)
    (c : FileContent) : Bool × Manager :=
  match parseFile c with
  | Except.error _ => (false, m)
  | Except.ok j => m.loadManifestJson j overrideDisabled forceLoad

/-- `Manager::loadAllManifests(path, overrideDisabled, forceLoad)`: refuse
during shutdown; return false when the path does not exist; otherwise admit
every direct entry of a directory (failures recorded, never aborting the
batch) or the single file, and return the accumulated `error` flag. -/
def Manager.loadAllManifests (m : Manager) (path : String)
    (overrideDisabled forceLoad : Bool) : Bool × Manager :=
  if m.fsmState = States.GracefulShutdown then
    (false, m)
  else
    match alookup m.fs path with
    | none => (false, m)
    | some (FsNode.dir entries) =>
      entries.foldl (fun acc c =>
        let r := subLoadStep overrideDisabled forceLoad acc.2 c
        (acc.1 || !r.1, r.2)) (false, m)
    | some (FsNode.file c) =>
      let r := subLoadStep overrideDisabled forceLoad m c
      (!r.1, r.2)

/-- `Manager::loadDefaultManifests`: drive `loadAllManifests` across every
domain load path, discarding the error flags. -/
def Manager.loadDefaultManifests (m : Manager) : Manager :=
  m.loadPaths.foldl (fun acc p => (acc.loadAllManifests p false false).2) m

/-- `Manager::startRpcServer`: bind the control socket. -/
def Manager.startRpcServer (m : Manager) : Manager :=
  { m with chanBound := true }

/-- `fsm.execute(trigger)` over the transition table of `Manager::initFSM`:
a trigger with no matching row (or a failing guard) is a no-op; on a match
the state is updated and the transition's action runs. -/
def Manager.fsmExecute (m : Manager) (t : Triggers) : Manager :=
  match m.fsmState, t with
  | States.Unconfigured, Triggers.StopRequested =>
    { m with fsmState := States.Finished }
  | States.Unconfigured, Triggers.StartRequested =>
    let m := { m with fsmState := States.Running }
    let m := m.startRpcServer
    let m := m.loadDefaultManifests
    m.startAllJobs
  | States.Running, Triggers.StartRequested =>
    if m.pending_jobs.isEmpty then m else m.startAllJobs
  | States.Running, Triggers.StopRequested =>
    let m := { m with fsmState := States.GracefulShutdown }
    let m := { m with chanBound := false }
    (m.unloadAllJobs).2
  | States.GracefulShutdown, Triggers.StopRequested =>
    { m with fsmState := States.Finished }
  | States.GracefulShutdown, Triggers.AllJobsExited =>
    { m with fsmState := States.Finished }
  | _, _ => m

/-- `Manager::handleEvent(timeout)`: tick semantics by state.  The boolean
is the C++ return value `fsm.state() != States::Finished`, computed after
the tick body. -/
def Manager.handleEvent (m : Manager) (timeout : Option Nat) :
    Except ProgrammerError (Manager × Bool) :=
  match m.fsmState with
  | States.Unconfigured => Except.error (ProgrammerError.invalidState "unsupported state")
  | States.Running =>
    let m := m.waitForEvent timeout
    Except.ok (m, decide (m.fsmState ≠ States.Finished))
  | States.GracefulShutdown =>
    if m.jobs.isEmpty then
      let m := m.fsmExecute Triggers.AllJobsExited
      Except.ok (m, decide (m.fsmState ≠ States.Finished))
    else
      let m := m.waitForEvent (some 500)
      Except.ok (m, decide (m.fsmState ≠ States.Finished))
  | States.Finished => Except.ok (m, decide (m.fsmState ≠ States.Finished))

/-- `Manager::handleShutdownSignal(signame)`: dispatch by current state;
a second signal during graceful shutdown force-unloads everything and fires
`AllJobsExited`. -/
def Manager.handleShutdownSignal (m : Manager) : Manager :=
  match m.fsmState with
  | States.Unconfigured => m.fsmExecute Triggers.StopRequested
  | States.GracefulShutdown =>
    (m.forceUnloadAllJobs).fsmExecute Triggers.AllJobsExited
  | States.Running => m.fsmExecute Triggers.StopRequested
  | States.Finished => m

/-- The `while (handleEvent()) ;` loop of `runMainLoop`, with explicit fuel
(the model truncates a loop longer than the fuel, returning the manager
reached so far). -/
def runLoop : Nat → Manager → Except ProgrammerError Manager
  | 0, m => Except.ok m
  | Nat.succ n, m =>
    match m.handleEvent none with
    | Except.error e => Except.error e
    | Except.ok (m', true) => runLoop n m'
    | Except.ok (m', false) => Except.ok m'

/-- `Manager::runMainLoop`: requires `Running`, then ticks until finished. -/
def Manager.runMainLoop (m : Manager) (fuel : Nat) :
    Except ProgrammerError Manager :=
  if m.fsmState = States.Running then
    runLoop fuel m
  else
    Except.error (ProgrammerError.invalidState "must call startRunning() first")

/-- `Manager::runOnce(timeout)`: requires `Running`, then a single tick. -/
def Manager.runOnce (m : Manager) (timeout : Option Nat) :
    Except ProgrammerError (Manager × Bool) :=
  if m.fsmState = States.Running then
    m.handleEvent timeout
  else
    Except.error (ProgrammerError.invalidState "must call startRunning() first")

/-- `Manager::clearStateFile`: outside a unit-test build the operation
throws; under the test flag it resets the document to the default. -/
def Manager.clearStateFile (m : Manager) : Except ProgrammerError Manager :=
  if m.unitTestBuild then
    Except.ok { m with state_file := defaultStateDoc }
  else
    Except.error (ProgrammerError.invalidState "This should not be used outside of testing")

/-- `Manager::startRunning`. -/
def Manager.startRunning (m : Manager) : Manager :=
  m.fsmExecute Triggers.StartRequested

/-- `Manager::stopRunning`. -/
def Manager.stopRunning (m : Manager) : Manager :=
  m.fsmExecute Triggers.StopRequested

/-- The sequence of per-entry admission outcomes of a `loadAllManifests`
directory batch, each entry attempted in order on the evolving manager.
Used to state that the batch never aborts and that the returned `error`
flag aggregates exactly these outcomes. -/
def subLoadTrace (od fl : Bool) : Manager → List FileContent → List Bool × Manager
  | m, [] => ([], m)
  | m, c :: rest =>
    let r := subLoadStep od fl m c
    let t := subLoadTrace od fl r.2 rest
    (r.1 :: t.1, t.2)

/-! ### Association-list lemmas -/

theorem alookup_aset_self {α : Type} (l : List (String × α)) (k : String) (v : α) :
    alookup (aset l k v) k = some v := by
  induction l with
  | nil => simp [aset, alookup]
  | cons e rest ih =>
    obtain ⟨k', v'⟩ := e
    by_cases h : k' = k
    · simp [aset, alookup, h]
    · simp [aset, alookup, h, ih]

theorem acontains_cons {α : Type} (k' : String) (v : α) (rest : List (String × α))
    (k : String) :
    acontains ((k', v) :: rest) k = (decide (k' = k) || acontains rest k) := by
  by_cases h : k' = k <;> simp [acontains, alookup, h]

theorem alookup_append_of_notin {α : Type} (l1 l2 : List (String × α)) (k : String)
    (h : acontains l1 k = false) : alookup (l1 ++ l2) k = alookup l2 k := by
  induction l1 with
  | nil => simp
  | cons e rest ih =>
    obtain ⟨k', v'⟩ := e
    rw [acontains_cons] at h
    simp only [Bool.or_eq_false_iff, decide_eq_false_iff_not] at h
    simp [alookup, h.1, ih h.2]

theorem acontains_append {α : Type} (l1 l2 : List (String × α)) (k : String) :
    acontains (l1 ++ l2) k = (acontains l1 k || acontains l2 k) := by
  induction l1 with
  | nil => simp [acontains, alookup]
  | cons e rest ih =>
    obtain ⟨k', v'⟩ := e
    by_cases h : k' = k
    · simp [acontains, alookup, h]
    · simpa [acontains, alookup, h] using ih

theorem aupdate_append {α : Type} (l1 : List (String × α)) (k : String) (v v' : α)
    (h : acontains l1 k = false) :
    aupdate (l1 ++ [(k, v)]) k v' = l1 ++ [(k, v')] := by
  induction l1 with
  | nil => simp [aupdate]
  | cons e rest ih =>
    obtain ⟨k', w⟩ := e
    rw [acontains_cons] at h
    simp only [Bool.or_eq_false_iff, decide_eq_false_iff_not] at h
    simp [aupdate, h.1, ih h.2]

theorem aerase_append {α : Type} (l1 : List (String × α)) (k : String) (v : α)
    (h : acontains l1 k = false) :
    aerase (l1 ++ [(k, v)]) k = l1 := by
  induction l1 with
  | nil => simp [aerase]
  | cons e rest ih =>
    obtain ⟨k', w⟩ := e
    rw [acontains_cons] at h
    simp only [Bool.or_eq_false_iff, decide_eq_false_iff_not] at h
    simp [aerase, h.1, ih h.2]

/-! ### Promotion lemmas -/

theorem promoteStep_notin (jobs : List (String × Job)) (k : String) (j : Job)
    (h : acontains jobs k = false) :
    promoteStep jobs (k, j) = jobs ++ [(k, j.bootstrap)] := by
  simp [promoteStep, h]

theorem foldl_promote_notin (pending : List (String × Job))
    (jobs : List (String × Job)) (k : String)
    (hj : acontains jobs k = false) (hp : acontains pending k = false) :
    acontains (List.foldl promoteStep jobs pending) k = false := by
  induction pending generalizing jobs with
  | nil => simpa using hj
  | cons e rest ih =>
    obtain ⟨k', j⟩ := e
    rw [acontains_cons] at hp
    simp only [Bool.or_eq_false_iff, decide_eq_false_iff_not] at hp
    simp only [List.foldl_cons]
    apply ih _ _ hp.2
    unfold promoteStep
    by_cases hc : acontains jobs k' = true
    · simpa [hc] using hj
    · rw [if_neg hc, acontains_append, hj, acontains_cons]
      simp [hp.1, acontains, alookup]

theorem unloadJobLabel_found (m : Manager) (k : String) (jb : Job)
    (X : List (String × Job)) (hm : m.jobs = X ++ [(k, jb)])
    (hX : acontains X k = false) :
    m.unloadJobLabel k false false
      = (true, { m with jobs := X ++ [(k, (jb.unloadJob false).1)] }) := by
  unfold Manager.unloadJobLabel
  have hex : m.jobExists k = true := by
    unfold Manager.jobExists
    rw [hm, acontains_append, hX, acontains_cons]
    simp
  rw [if_pos hex]
  have hlk : alookup m.jobs k = some jb := by
    rw [hm, alookup_append_of_notin _ _ _ hX]
    simp [alookup]
  rw [hlk]
  show (true, ({ m with jobs := aupdate m.jobs k { jb with unload_requested := true } } : Manager))
      = (true, ({ m with jobs := X ++ [(k, (jb.unloadJob false).1)] } : Manager))
  rw [hm, aupdate_append _ _ _ _ hX]
  rfl

theorem deleteJob_append (m : Manager) (k : String) (jb : Job)
    (X : List (String × Job)) (hm : m.jobs = X ++ [(k, jb)])
    (hX : acontains X k = false) :
    m.deleteJob k = { m with jobs := X } := by
  unfold Manager.deleteJob
  rw [hm, aerase_append _ _ _ hX]

/-! ### Batch-load lemmas -/

theorem subLoadTrace_length (od fl : Bool) (entries : List FileContent)
    (m : Manager) :
    (subLoadTrace od fl m entries).1.length = entries.length := by
  induction entries generalizing m with
  | nil => simp [subLoadTrace]
  | cons c rest ih => simp [subLoadTrace, ih]

theorem foldl_subload_eq_trace (od fl : Bool) (entries : List FileContent)
    (m : Manager) (e : Bool) :
    entries.foldl (fun acc c =>
      let r := subLoadStep od fl acc.2 c
      (acc.1 || !r.1, r.2)) (e, m)
    = (e || (subLoadTrace od fl m entries).1.any (fun r => !r),
       (subLoadTrace od fl m entries).2) := by
  induction entries generalizing m e with
  | nil => simp [subLoadTrace]
  | cons c rest ih =>
    simp only [List.foldl_cons, subLoadTrace, List.any_cons]
    rw [ih]
    simp [Bool.or_assoc]

/-! ### Claim theorems -/

/-- C4: a `load_manifest` call whose label is already present in `pending`
or in `active` returns false and leaves the manager (pending map, active
map, state document) entirely unchanged; this holds for any manager state,
in particular both before and after `startAllJobs` has promoted the label. -/
theorem c4_duplicate_rejected (m : Manager) (mf : Manifest) (od fl : Bool)
    (h : acontains m.pending_jobs mf.label = true ∨ m.jobExists mf.label = true) :
    m.loadManifestJson (some mf) od fl = (false, m) := by
  unfold Manager.loadManifestJson
  by_cases hgs : m.fsmState = States.GracefulShutdown
  · simp [hgs]
  · rcases h with h | h <;> simp [hgs, h]

/-- C5 (amended): while the manager state is `GracefulShutdown`, every call
to `load_manifest` and to `load_all` returns false and leaves the manager
unchanged; the admission guard applies to the `GracefulShutdown` state
itself (it is not checked in `Finished`). -/
theorem c5_shutdown_rejects_admission (m : Manager)
    (h : m.fsmState = States.GracefulShutdown) (j : JsonVal) (path : String)
    (od fl : Bool) :
    m.loadManifestJson j od fl = (false, m) ∧
    m.loadAllManifests path od fl = (false, m) := by
  constructor
  · unfold Manager.loadManifestJson
    simp [h]
  · unfold Manager.loadAllManifests
    simp [h]

/-- C5 counterexample: the code does not disable admission monotonically
after `GracefulShutdown` is entered.  A manager driven Unconfigured →
Running → GracefulShutdown → Finished accepts a new manifest into `pending`
in the `Finished` state (the shutdown guard checks only for
`GracefulShutdown`). -/
theorem c5_counterexample :
    ((Manager.init [] [] false defaultStateDoc).startRunning.stopRunning).fsmState
      = States.GracefulShutdown ∧
    ((Manager.init [] [] false defaultStateDoc).startRunning.stopRunning.stopRunning).fsmState
      = States.Finished ∧
    (((Manager.init [] [] false defaultStateDoc).startRunning.stopRunning.stopRunning).loadManifestJson
        (some { label := "a", disabled := false }) false false).1 = true := by
  decide

/-- C4 witness: a concrete Running manager that admitted label `a` rejects
a duplicate while `a` is pending, and again after `startAllJobs` moved `a`
into `active`. -/
theorem c4_duplicate_rejected_witness :
    ((Manager.init [] [] false defaultStateDoc).startRunning.loadManifestJson
        (some { label := "a", disabled := false }) false false).2.loadManifestJson
        (some { label := "a", disabled := false }) false false
      = (false,
         ((Manager.init [] [] false defaultStateDoc).startRunning.loadManifestJson
            (some { label := "a", disabled := false }) false false).2) ∧
    ((Manager.init [] [] false defaultStateDoc).startRunning.loadManifestJson
        (some { label := "a", disabled := false }) false false).2.startAllJobs.loadManifestJson
        (some { label := "a", disabled := false }) false false
      = (false,
         ((Manager.init [] [] false defaultStateDoc).startRunning.loadManifestJson
            (some { label := "a", disabled := false }) false false).2.startAllJobs) :=
  ⟨c4_duplicate_rejected _ { label := "a", disabled := false } false false
     (Or.inl (by decide)),
   c4_duplicate_rejected _ { label := "a", disabled := false } false false
     (Or.inr (by decide))⟩

/-- C5 witness: a concrete manager in `GracefulShutdown` rejects both a
single-manifest load and a directory load without mutation. -/
theorem c5_shutdown_rejects_admission_witness :
    ((Manager.init [] [("etc", FsNode.dir [FileContent.ok { label := "a", disabled := false }])] false defaultStateDoc).startRunning.stopRunning).loadManifestJson
        (some { label := "a", disabled := false }) false false
      = (false,
         (Manager.init [] [("etc", FsNode.dir [FileContent.ok { label := "a", disabled := false }])] false defaultStateDoc).startRunning.stopRunning) ∧
    ((Manager.init [] [("etc", FsNode.dir [FileContent.ok { label := "a", disabled := false }])] false defaultStateDoc).startRunning.stopRunning).loadAllManifests
        "etc" false false
      = (false,
         (Manager.init [] [("etc", FsNode.dir [FileContent.ok { label := "a", disabled := false }])] false defaultStateDoc).startRunning.stopRunning) :=
  c5_shutdown_rejects_admission _ (by decide)
    (some { label := "a", disabled := false }) "etc" false false

/-- C6: a shutdown signal received while already in `GracefulShutdown`
escalates: every active job is force-unloaded (the `jobs` map becomes
empty) and the manager transitions to `Finished` via `AllJobsExited`
before `handleShutdownSignal` returns. -/
theorem c6_second_signal_forces_finish (m : Manager)
    (h : m.fsmState = States.GracefulShutdown) :
    (m.handleShutdownSignal).jobs = [] ∧
    (m.handleShutdownSignal).fsmState = States.Finished := by
  unfold Manager.handleShutdownSignal
  rw [h]
  simp [Manager.forceUnloadAllJobs, Manager.fsmExecute, h]

/-- C6 witness at a concrete shutting-down manager holding one active job. -/
theorem c6_second_signal_forces_finish_witness :
    ({ Manager.init [] [] false defaultStateDoc with
        fsmState := States.GracefulShutdown,
        jobs := [("a", Job.mk' { label := "a", disabled := false })] } : Manager).handleShutdownSignal.jobs
      = [] ∧
    ({ Manager.init [] [] false defaultStateDoc with
        fsmState := States.GracefulShutdown,
        jobs := [("a", Job.mk' { label := "a", disabled := false })] } : Manager).handleShutdownSignal.fsmState
      = States.Finished :=
  c6_second_signal_forces_finish _ (by decide)

/-- C7: invalid-state operations raise a structured fatal error
(`std::logic_error`) instead of returning a value: `runMainLoop` and
`runOnce` outside `Running`, `handleEvent` in `Unconfigured`, and
`clearStateFile` in a non-test build. -/
theorem c7_programmer_errors (m : Manager) (timeout : Option Nat) (fuel : Nat) :
    (m.fsmState ≠ States.Running →
      m.runMainLoop fuel
        = Except.error (ProgrammerError.invalidState "must call startRunning() first") ∧
      m.runOnce timeout
        = Except.error (ProgrammerError.invalidState "must call startRunning() first")) ∧
    (m.fsmState = States.Unconfigured →
      m.handleEvent timeout
        = Except.error (ProgrammerError.invalidState "unsupported state")) ∧
    (m.unitTestBuild = false →
      m.clearStateFile
        = Except.error (ProgrammerError.invalidState "This should not be used outside of testing")) := by
  refine ⟨fun hNR => ⟨?_, ?_⟩, fun hU => ?_, fun hT => ?_⟩
  · unfold Manager.runMainLoop
    simp [hNR]
  · unfold Manager.runOnce
    simp [hNR]
  · unfold Manager.handleEvent
    rw [hU]
  · unfold Manager.clearStateFile
    simp [hT]

/-- C7 witness at a freshly constructed (Unconfigured, non-test) manager. -/
theorem c7_programmer_errors_witness :
    (Manager.init [] [] false defaultStateDoc).runMainLoop 5
      = Except.error (ProgrammerError.invalidState "must call startRunning() first") ∧
    (Manager.init [] [] false defaultStateDoc).runOnce none
      = Except.error (ProgrammerError.invalidState "must call startRunning() first") ∧
    (Manager.init [] [] false defaultStateDoc).handleEvent none
      = Except.error (ProgrammerError.invalidState "unsupported state") ∧
    (Manager.init [] [] false defaultStateDoc).clearStateFile
      = Except.error (ProgrammerError.invalidState "This should not be used outside of testing") :=
  ⟨((c7_programmer_errors (Manager.init [] [] false defaultStateDoc) none 5).1
      (by decide)).1,
   ((c7_programmer_errors (Manager.init [] [] false defaultStateDoc) none 5).1
      (by decide)).2,
   (c7_programmer_errors (Manager.init [] [] false defaultStateDoc) none 5).2.1
      (by decide),
   (c7_programmer_errors (Manager.init [] [] false defaultStateDoc) none 5).2.2
      (by decide)⟩

/-- C9: `Finished` is terminal: every trigger fired in `Finished` is a
no-op (the manager, hence its state, is unchanged), and `handleEvent` in
`Finished` performs no wait and returns false. -/
theorem c9_finished_terminal (m : Manager) (t : Triggers) (timeout : Option Nat)
    (h : m.fsmState = States.Finished) :
    m.fsmExecute t = m ∧ m.handleEvent timeout = Except.ok (m, false) := by
  constructor
  · unfold Manager.fsmExecute
    rw [h]
  · unfold Manager.handleEvent
    rw [h]
    rfl

/-- C1 counterexample: an Overrides entry with `Enabled = true` does not
supersede the manifest's `disabled` field.  With a manager whose state file
maps `a` to `Enabled = true` (pre-seeded), loading `(Label a, Disabled
true)` without force returns false; likewise when the entry is written by
the call itself via `override_disabled = true`.  The claim says both calls
return true. -/
theorem c1_counterexample :
    alookup ((Manager.init [] []
        false { schemaVersion := 1, overrides := [("a", true)] }).startRunning).state_file.overrides "a"
      = some true ∧
    (((Manager.init [] []
        false { schemaVersion := 1, overrides := [("a", true)] }).startRunning).loadManifestJson
        (some { label := "a", disabled := true }) false false).1 = false ∧
    (((Manager.init [] [] false defaultStateDoc).startRunning).loadManifestJson
        (some { label := "a", disabled := true }) true false).1 = false := by
  decide

/-- C1 (amended): for every manifest with `disabled = true` loaded with
`force_load = false`, `load_manifest` returns false and admits nothing into
`pending`, regardless of any `Overrides` entry for the label: the
manifest-disabled check runs before and independently of the state-file
override check, so a present `Enabled = true` entry does not supersede the
manifest's `disabled` field (only `force_load` does). -/
theorem c1_disabled_rejected_despite_override (m : Manager) (mf : Manifest)
    (od : Bool) (h : mf.disabled = true) :
    (m.loadManifestJson (some mf) od false).1 = false ∧
    (m.loadManifestJson (some mf) od false).2.pending_jobs = m.pending_jobs := by
  unfold Manager.loadManifestJson
  by_cases hgs : m.fsmState = States.GracefulShutdown
  · simp [hgs]
  · by_cases hdup : (m.jobExists mf.label || acontains m.pending_jobs mf.label) = true
    · simp [hgs, hdup]
    · rw [Bool.not_eq_true] at hdup
      cases od <;> simp [hgs, hdup, h, Manager.overrideJobEnabled]

/-- C1 witness at the pre-seeded `Enabled = true` manager of the
counterexample. -/
theorem c1_disabled_rejected_despite_override_witness :
    ((((Manager.init [] []
        false { schemaVersion := 1, overrides := [("a", true)] }).startRunning).loadManifestJson
        (some { label := "a", disabled := true }) false false).1 = false) ∧
    ((((Manager.init [] []
        false { schemaVersion := 1, overrides := [("a", true)] }).startRunning).loadManifestJson
        (some { label := "a", disabled := true }) false false).2.pending_jobs
      = ((Manager.init [] []
        false { schemaVersion := 1, overrides := [("a", true)] }).startRunning).pending_jobs) :=
  c1_disabled_rejected_despite_override _ { label := "a", disabled := true } false
    (by decide)

/-- C2 counterexample: `handleEvent` in `GracefulShutdown` with `active`
empty fires `AllJobsExited` — the state is `Finished` within the tick — but
then returns false, not true: the return value `fsm.state() != Finished` is
computed after the transition. -/
theorem c2_counterexample :
    ((Manager.init [] [] false defaultStateDoc).startRunning.stopRunning).fsmState
      = States.GracefulShutdown ∧
    ((Manager.init [] [] false defaultStateDoc).startRunning.stopRunning).jobs = [] ∧
    ((Manager.init [] [] false defaultStateDoc).startRunning.stopRunning).handleEvent (some 1000)
      = Except.ok
          ({ (Manager.init [] [] false defaultStateDoc).startRunning.stopRunning with
              fsmState := States.Finished }, false) :=
  ⟨by decide, by decide, by rfl⟩

/-- C2 (amended): `handleEvent` in `GracefulShutdown`: if `active` is
empty, it fires `AllJobsExited` (the state is `Finished` within the same
tick) and returns false, the return value being `state != Finished`
computed after the transition; otherwise it waits on the EventDriver with a
500 ms timeout regardless of the caller's timeout argument and returns
true. -/
theorem c2_graceful_shutdown_tick (m : Manager) (timeout : Option Nat)
    (h : m.fsmState = States.GracefulShutdown) :
    (m.jobs = [] →
      m.handleEvent timeout
        = Except.ok ({ m with fsmState := States.Finished }, false)) ∧
    (m.jobs ≠ [] →
      m.handleEvent timeout
        = Except.ok ({ m with waits := m.waits ++ [some 500] }, true)) := by
  constructor
  · intro hj
    simp [Manager.handleEvent, h, hj, Manager.fsmExecute]
  · intro hj
    simp [Manager.handleEvent, h, Manager.waitForEvent, List.isEmpty_iff, hj]

/-- C2 witness: a drained shutting-down manager finishes with return false;
one holding a job waits 500 ms (caller asked for 12345 ms) and returns
true. -/
theorem c2_graceful_shutdown_tick_witness :
    ((Manager.init [] [] false defaultStateDoc).startRunning.stopRunning).handleEvent (some 12345)
      = Except.ok
          ({ (Manager.init [] [] false defaultStateDoc).startRunning.stopRunning with
              fsmState := States.Finished }, false) ∧
    ({ Manager.init [] [] false defaultStateDoc with
        fsmState := States.GracefulShutdown,
        jobs := [("a", Job.mk' { label := "a", disabled := false })] } : Manager).handleEvent (some 12345)
      = Except.ok
          ({ Manager.init [] [] false defaultStateDoc with
              fsmState := States.GracefulShutdown,
              jobs := [("a", Job.mk' { label := "a", disabled := false })],
              waits := [some 500] }, true) :=
  ⟨(c2_graceful_shutdown_tick _ (some 12345) (by decide)).1 (by decide),
   (c2_graceful_shutdown_tick _ (some 12345) (by decide)).2 (by decide)⟩

/-- C10: a rejected admission can still mutate persistent state: for a
manifest with `disabled = true` that is not a duplicate, calling
`load_manifest` with `override_disabled = true` and `force_load = false`
outside shutdown returns false, yet the state document durably records
`Overrides[label].Enabled = true` — the override write precedes the
enabled checks and is not rolled back. -/
theorem c10_override_write_survives_rejection (m : Manager) (mf : Manifest)
    (hgs : m.fsmState ≠ States.GracefulShutdown) (hd : mf.disabled = true)
    (hj : m.jobExists mf.label = false)
    (hp : acontains m.pending_jobs mf.label = false) :
    (m.loadManifestJson (some mf) true false).1 = false ∧
    alookup (m.loadManifestJson (some mf) true false).2.state_file.overrides mf.label
      = some true := by
  unfold Manager.loadManifestJson
  simp [hgs, hj, hp, hd, Manager.overrideJobEnabled, alookup_aset_self]

/-- C10 witness: a fresh Running manager rejects `(Label a, Disabled true)`
under `override_disabled = true` but its state file now maps `a` to
`Enabled = true`. -/
theorem c10_override_write_survives_rejection_witness :
    (((Manager.init [] [] false defaultStateDoc).startRunning).loadManifestJson
        (some { label := "a", disabled := true }) true false).1 = false ∧
    alookup (((Manager.init [] [] false defaultStateDoc).startRunning).loadManifestJson
        (some { label := "a", disabled := true }) true false).2.state_file.overrides "a"
      = some true :=
  c10_override_write_survives_rejection _ { label := "a", disabled := true }
    (by decide) (by decide) (by decide) (by decide)

/-- C9 witness at a concrete finished manager, for each trigger. -/
theorem c9_finished_terminal_witness :
    ((Manager.init [] [] false defaultStateDoc).stopRunning).fsmExecute Triggers.StartRequested
      = (Manager.init [] [] false defaultStateDoc).stopRunning ∧
    ((Manager.init [] [] false defaultStateDoc).stopRunning).fsmExecute Triggers.StopRequested
      = (Manager.init [] [] false defaultStateDoc).stopRunning ∧
    ((Manager.init [] [] false defaultStateDoc).stopRunning).fsmExecute Triggers.AllJobsExited
      = (Manager.init [] [] false defaultStateDoc).stopRunning ∧
    ((Manager.init [] [] false defaultStateDoc).stopRunning).handleEvent (some 100)
      = Except.ok ((Manager.init [] [] false defaultStateDoc).stopRunning, false) :=
  ⟨(c9_finished_terminal _ Triggers.StartRequested (some 100) (by decide)).1,
   (c9_finished_terminal _ Triggers.StopRequested (some 100) (by decide)).1,
   (c9_finished_terminal _ Triggers.AllJobsExited (some 100) (by decide)).1,
   (c9_finished_terminal _ Triggers.StartRequested (some 100) (by decide)).2⟩

/-- C8: `load_all` outside shutdown: a nonexistent path returns false with
no mutation; a directory batch returns true exactly when at least one
per-entry sub-load (parse failure included) reported failure, every entry
being attempted in order (the outcome trace covers the whole directory);
a single file reports its one sub-load's failure. -/
theorem c8_load_all_batch (m : Manager) (path : String) (od fl : Bool)
    (hgs : m.fsmState ≠ States.GracefulShutdown) :
    (alookup m.fs path = none → m.loadAllManifests path od fl = (false, m)) ∧
    (∀ entries, alookup m.fs path = some (FsNode.dir entries) →
      m.loadAllManifests path od fl
        = ((subLoadTrace od fl m entries).1.any (fun r => !r),
           (subLoadTrace od fl m entries).2) ∧
      (subLoadTrace od fl m entries).1.length = entries.length) ∧
    (∀ c, alookup m.fs path = some (FsNode.file c) →
      m.loadAllManifests path od fl
        = (!(subLoadStep od fl m c).1, (subLoadStep od fl m c).2)) := by
  refine ⟨?_, ?_, ?_⟩
  · intro hnone
    unfold Manager.loadAllManifests
    simp [hgs, hnone]
  · intro entries hdir
    refine ⟨?_, subLoadTrace_length od fl entries m⟩
    unfold Manager.loadAllManifests
    rw [if_neg hgs, hdir]
    show entries.foldl (fun acc c =>
        let r := subLoadStep od fl acc.2 c
        (acc.1 || !r.1, r.2)) (false, m)
      = ((subLoadTrace od fl m entries).1.any (fun r => !r),
         (subLoadTrace od fl m entries).2)
    rw [foldl_subload_eq_trace]
    simp
  · intro c hfile
    unfold Manager.loadAllManifests
    rw [if_neg hgs, hfile]

/-- The filesystem for the C8 witness: a directory `d` holding an
unparseable file, a valid manifest and a schema-invalid file, and a lone
valid file `f`. -/
def c8fs : Fs :=
  [("d", FsNode.dir [FileContent.unparseable,
                     FileContent.ok { label := "a", disabled := false },
                     FileContent.schemaBad]),
   ("f", FsNode.file (FileContent.ok { label := "b", disabled := false }))]

/-- The Running manager of the C8 witness. -/
def c8mgr : Manager := (Manager.init [] c8fs false defaultStateDoc).startRunning

/-- C8 witness: a missing path yields false without mutation, and the mixed
directory batch yields the aggregated trace outcome with all three entries
attempted. -/
theorem c8_load_all_batch_witness :
    c8mgr.loadAllManifests "missing" false false = (false, c8mgr) ∧
    (c8mgr.loadAllManifests "d" false false
      = ((subLoadTrace false false c8mgr
            [FileContent.unparseable,
             FileContent.ok { label := "a", disabled := false },
             FileContent.schemaBad]).1.any (fun r => !r),
         (subLoadTrace false false c8mgr
            [FileContent.unparseable,
             FileContent.ok { label := "a", disabled := false },
             FileContent.schemaBad]).2) ∧
     (subLoadTrace false false c8mgr
        [FileContent.unparseable,
         FileContent.ok { label := "a", disabled := false },
         FileContent.schemaBad]).1.length
       = [FileContent.unparseable,
          FileContent.ok { label := "a", disabled := false },
          FileContent.schemaBad].length) :=
  ⟨(c8_load_all_batch c8mgr "missing" false false (by decide)).1 (by decide),
   (c8_load_all_batch c8mgr "d" false false (by decide)).2.1
     [FileContent.unparseable,
      FileContent.ok { label := "a", disabled := false },
      FileContent.schemaBad] (by decide)⟩

/-- C3 counterexample: admitting `(Label a)` while Running leaves it in
`pending`; `unload("a")` then returns false without removing it (it checks
the `active` map only), and the second `load_manifest` is rejected as a
duplicate — it does not succeed as the claim states. -/
theorem c3_counterexample :
    (((Manager.init [] [] false defaultStateDoc).startRunning).loadManifestJson
        (some { label := "a", disabled := false }) false false).1 = true ∧
    ((((Manager.init [] [] false defaultStateDoc).startRunning).loadManifestJson
        (some { label := "a", disabled := false }) false false).2.unloadJobLabel
        "a" false false)
      = (false,
         (((Manager.init [] [] false defaultStateDoc).startRunning).loadManifestJson
            (some { label := "a", disabled := false }) false false).2) ∧
    (((((Manager.init [] [] false defaultStateDoc).startRunning).loadManifestJson
        (some { label := "a", disabled := false }) false false).2.unloadJobLabel
        "a" false false).2.loadManifestJson
        (some { label := "a", disabled := false }) false false).1 = false := by
  decide

/-- C3 (amended): the reload round-trip holds once the admitted job has
been promoted to `active` and its lazy deletion has been processed: for a
manifest admitted while Running (fresh label, not disabled, no disabling
override), after `startAllJobs`, `unload(label)`, and the `delete_job` IPC
invoked by the Job on reaching its terminal state, a second
`load_manifest` of the same manifest succeeds.  (For a job still in
`pending`, or before `delete_job` runs, the second load is rejected as a
duplicate, as the counterexample shows.) -/
theorem c3_reload_after_promote_and_delete (m : Manager) (mf : Manifest)
    (hrun : m.fsmState = States.Running)
    (hj : m.jobExists mf.label = false)
    (hp : acontains m.pending_jobs mf.label = false)
    (hd : mf.disabled = false)
    (hs : alookup m.state_file.overrides mf.label ≠ some false) :
    (m.loadManifestJson (some mf) false false).1 = true ∧
    (((((m.loadManifestJson (some mf) false false).2.startAllJobs).unloadJobLabel
        mf.label false false).2.deleteJob mf.label).loadManifestJson
        (some mf) false false).1 = true := by
  have hj' : acontains m.jobs mf.label = false := hj
  have h1 : m.loadManifestJson (some mf) false false
      = (true, { m with pending_jobs := m.pending_jobs ++ [(mf.label, Job.mk' mf)] }) := by
    unfold Manager.loadManifestJson
    rcases hlk : alookup m.state_file.overrides mf.label with _ | b
    · simp [hrun, hj, hp, hd, hlk, Manager.jobExists, hj']
    · have hb : b = true := by
        cases b
        · exact absurd hlk hs
        · rfl
      subst hb
      simp [hrun, hj, hp, hd, hlk, Manager.jobExists, hj']
  rw [h1]
  have hX : acontains (List.foldl promoteStep m.jobs m.pending_jobs) mf.label = false :=
    foldl_promote_notin m.pending_jobs m.jobs mf.label hj' hp
  have h2 : ({ m with pending_jobs := m.pending_jobs ++ [(mf.label, Job.mk' mf)] } : Manager).startAllJobs
      = { m with
          pending_jobs := [],
          jobs := List.foldl promoteStep m.jobs m.pending_jobs
                    ++ [(mf.label, (Job.mk' mf).bootstrap)] } := by
    unfold Manager.startAllJobs
    rw [List.foldl_append]
    simp only [List.foldl_cons, List.foldl_nil]
    rw [promoteStep_notin _ _ _ hX]
  rw [h2]
  have h3 := unloadJobLabel_found
    ({ m with
        pending_jobs := [],
        jobs := List.foldl promoteStep m.jobs m.pending_jobs
                  ++ [(mf.label, (Job.mk' mf).bootstrap)] } : Manager)
    mf.label ((Job.mk' mf).bootstrap)
    (List.foldl promoteStep m.jobs m.pending_jobs) rfl hX
  rw [h3]
  have h4 := deleteJob_append
    ({ m with
        pending_jobs := [],
        jobs := List.foldl promoteStep m.jobs m.pending_jobs
                  ++ [(mf.label, ((Job.mk' mf).bootstrap.unloadJob false).1)] } : Manager)
    mf.label (((Job.mk' mf).bootstrap.unloadJob false).1)
    (List.foldl promoteStep m.jobs m.pending_jobs) rfl hX
  rw [h4]
  refine ⟨rfl, ?_⟩
  have hX' : (alookup (List.foldl promoteStep m.jobs m.pending_jobs) mf.label).isSome
      = false := hX
  unfold Manager.loadManifestJson
  rcases hlk : alookup m.state_file.overrides mf.label with _ | b
  · simp [hrun, hd, hlk, Manager.jobExists, acontains, hX', alookup]
  · have hb : b = true := by
      cases b
      · exact absurd hlk hs
      · rfl
    subst hb
    simp [hrun, hd, hlk, Manager.jobExists, acontains, hX', alookup]

/-- C3 witness: the full round-trip on a concrete fresh manager: admit
`(Label a)`, promote, unload, process `delete_job`, and admit again,
succeeding both times. -/
theorem c3_reload_after_promote_and_delete_witness :
    ((((Manager.init [] [] false defaultStateDoc).startRunning).loadManifestJson
        (some { label := "a", disabled := false }) false false).1 = true) ∧
    ((((((((Manager.init [] [] false defaultStateDoc).startRunning).loadManifestJson
        (some { label := "a", disabled := false }) false false).2.startAllJobs).unloadJobLabel
        "a" false false).2.deleteJob "a").loadManifestJson
        (some { label := "a", disabled := false }) false false).1 = true) :=
  c3_reload_after_promote_and_delete _ { label := "a", disabled := false }
    (by decide) (by decide) (by decide) (by decide) (by decide)

end Relaunchd
